import Mathlib

/-!
# Sonni AI site script (`src/js/script.js`): form validation, feedback, accordion, marquee

A shallow embedding of the event handlers of `script.js`.  The handlers are
functions from the part of the page they read to the part of the page they
write, together with the list of calls they make.

Strings are sequences of code points.  The pattern of `isValidEmail` has no
`u` flag and matches UTF-16 code units; a code point outside the BMP is two
code units, both in the class `[^\s@]`, and that class only occurs under `+`,
so matching code points accepts the same strings.
-/

namespace SonniAI

/-! ## Regular expressions (the fragment used by `emailRegex`) -/

/-- Regular expressions over characters: the constructs that occur in the
pattern of `isValidEmail`, with a character class given by its membership
test. -/
inductive RegExp where
  | empty : RegExp
  | eps : RegExp
  | cls : (Char → Bool) → RegExp
  | seq : RegExp → RegExp → RegExp
  | alt : RegExp → RegExp → RegExp
  | star : RegExp → RegExp

namespace RegExp

/-- The quantifier `+`: one or more repetitions. -/
def plus (r : RegExp) : RegExp := seq r (star r)

/-- A literal character. -/
def chr (c : Char) : RegExp := cls (fun x => x == c)

/-- Whether the expression accepts the empty input. -/
def nullable : RegExp → Bool
  | empty => false
  | eps => true
  | cls _ => false
  | seq a b => nullable a && nullable b
  | alt a b => nullable a || nullable b
  | star _ => true

/-- The expression that accepts the rest of the input once `c` is consumed. -/
def deriv : RegExp → Char → RegExp
  | empty, _ => empty
  | eps, _ => empty
  | cls p, c => if p c then eps else empty
  | seq a b, c =>
      if nullable a then alt (seq (deriv a c) b) (deriv b c) else seq (deriv a c) b
  | alt a b, c => alt (deriv a c) (deriv b c)
  | star a, c => seq (deriv a c) (star a)

/-- Anchored match of a whole input (`^...$`). -/
def matchChars : RegExp → List Char → Bool
  | r, [] => nullable r
  | r, c :: cs => matchChars (deriv r c) cs

/-- The method `RegExp.prototype.test` for an anchored pattern without flags. -/
def test (r : RegExp) (s : String) : Bool := matchChars r s.data

/-- The set of inputs an expression denotes. -/
def Lang : RegExp → List Char → Prop
  | empty, _ => False
  | eps, s => s = []
  | cls p, s => ∃ c, s = [c] ∧ p c = true
  | seq a b, s => ∃ u v, s = u ++ v ∧ Lang a u ∧ Lang b v
  | alt a b, s => Lang a s ∨ Lang b s
  | star a, s => ∃ L : List (List Char), s = L.flatten ∧ ∀ u ∈ L, Lang a u

end RegExp

/-! ## `isValidEmail` -/

/-- The class `\s` of ECMAScript: white space and line terminators. -/
def isJsWhitespace (c : Char) : Bool :=
  c.val == 0x9 || c.val == 0xA || c.val == 0xB || c.val == 0xC || c.val == 0xD ||
  c.val == 0x20 || c.val == 0xA0 || c.val == 0x1680 ||
  (0x2000 ≤ c.val && c.val ≤ 0x200A) ||
  c.val == 0x2028 || c.val == 0x2029 || c.val == 0x202F || c.val == 0x205F ||
  c.val == 0x3000 || c.val == 0xFEFF

/-- The class `[^\s@]`. -/
def notSpaceAt (c : Char) : Bool := !(isJsWhitespace c || c == '@')

/-- The pattern `/^[^\s@]+@[^\s@]+\.[^\s@]+$/`. -/
def emailRegex : RegExp :=
  .seq (.plus (.cls notSpaceAt))
    (.seq (.chr '@')
      (.seq (.plus (.cls notSpaceAt))
        (.seq (.chr '.') (.plus (.cls notSpaceAt)))))

/-- The function `isValidEmail(email)` on a string argument. -/
def isValidEmail (email : String) : Bool := emailRegex.test email

/-! ## Values and strings of the script -/

/-- The conversion `String(v)` of a value returned by `FormData.get`, which is
`null` (here `none`) or a string. -/
def toJsString : Option String → String
  | none => "null"
  | some s => s

/-- Truthiness of such a value: `null` and the empty string are falsy. -/
def truthy : Option String → Bool
  | none => false
  | some s => s != ""

/-- A field value that is absent or the empty string. -/
def isBlank (v : Option String) : Prop := v = none ∨ v = some ""

instance (v : Option String) : Decidable (isBlank v) := by
  unfold isBlank
  exact inferInstance

/-- The operator `a || b` on two element lookups (an element or `null`). -/
def orElseNull {α : Type} : Option α → Option α → Option α
  | some a, _ => some a
  | none, b => b

/-- The property `length` of a string: its number of UTF-16 code units. -/
def jsLength (s : String) : Nat :=
  (s.data.map fun c => if c.val < 0x10000 then 1 else 2).sum

/-- The method `String.prototype.trim`: strips white space and line
terminators from both ends. -/
def jsTrim (s : String) : String :=
  ⟨((s.data.dropWhile isJsWhitespace).reverse.dropWhile isJsWhitespace).reverse⟩

/-- The method `classList.add(token)`. -/
def classListAdd (classList : List String) (token : String) : List String :=
  if classList.contains token then classList else classList ++ [token]

/-- Applies `f` to the element at index `i`, when there is one. -/
def modifyAt {α : Type} (l : List α) (i : Nat) (f : α → α) : List α :=
  match l[i]? with
  | some x => l.set i (f x)
  | none => l

/-- Index of the first element of a list, taken in document order, that
satisfies a test: the result of `querySelector`, `none` for `null`. -/
def queryFirst {α : Type} (p : α → Bool) : List α → Option Nat
  | [] => none
  | x :: xs => if p x then some 0 else (queryFirst p xs).map (· + 1)

/-! ## Page elements -/

/-- The selectors used by the script: `.name` and a tag name. -/
inductive Selector where
  | cls : String → Selector
  | tag : String → Selector
  deriving DecidableEq, Repr

/-- An element that holds text only (a message slot, a field annotation). -/
structure Leaf where
  tagName : String
  classList : List String
  textContent : String
  cssText : String
  deriving DecidableEq, Repr

/-- Whether a leaf matches a selector. -/
def Leaf.matchesSel (sel : Selector) (e : Leaf) : Bool :=
  match sel with
  | .cls c => e.classList.contains c
  | .tag t => e.tagName == t

/-- A feedback element under the parent of a form: its classes, its
`style.display` and its descendant elements in document order. -/
structure Element where
  tagName : String
  classList : List String
  display : String
  descendants : List Leaf
  deriving DecidableEq, Repr

/-- Whether an element matches a selector. -/
def Element.matchesSel (sel : Selector) (e : Element) : Bool :=
  match sel with
  | .cls c => e.classList.contains c
  | .tag t => e.tagName == t

/-- The call `el.querySelector(sel)` inside a feedback element. -/
def Element.querySelector (e : Element) (sel : Selector) : Option Nat :=
  queryFirst (Leaf.matchesSel sel) e.descendants

/-- A submittable control of a form. -/
structure Control where
  name : String
  value : String
  defaultValue : String
  deriving DecidableEq, Repr

/-- A form found in the document, hence below its root element, so that
`form.parentElement` is an element: the controls of the form, and the elements
below `form.parentElement`, in document order, that the feedback lookups range
over.  Their own descendants are message slots, which hold text only. -/
structure Form where
  controls : List Control
  parentElement : List Element
  deriving DecidableEq, Repr

/-- The call `form.parentElement.querySelector(sel)`. -/
def Form.parentQuery (form : Form) (sel : Selector) : Option Nat :=
  queryFirst (Element.matchesSel sel) form.parentElement

/-- The entry list of `new FormData(form)`. -/
def Form.formData (form : Form) : List (String × String) :=
  form.controls.map fun c => (c.name, c.value)

/-- The method `FormData.get(name)`: the first value under that name, or `null`. -/
def formDataGet (formData : List (String × String)) (name : String) : Option String :=
  formData.lookup name

/-- The method `form.reset()`: every control goes back to its default value. -/
def Form.reset (form : Form) : Form :=
  { form with controls := form.controls.map fun c => { c with value := c.defaultValue } }

/-! ## Success and error presentation -/

/-- The element `successDiv` of `showFormSuccess` and `showFormError`. -/
def successDivOf (form : Form) : Option Nat :=
  orElseNull (form.parentQuery (.cls "success-message")) (form.parentQuery (.cls "w-form-done"))

/-- The element `errorDiv` of `showFormSuccess` and `showFormError`. -/
def errorDivOf (form : Form) : Option Nat :=
  orElseNull (form.parentQuery (.cls "error-message")) (form.parentQuery (.cls "w-form-fail"))

/-- The element `messageEl` of `showFormSuccess`. -/
def successMessageEl (successDiv : Element) : Option Nat :=
  orElseNull (successDiv.querySelector (.cls "newsletter_success-text"))
    (successDiv.querySelector (.tag "div"))

/-- The element `messageEl` of `showFormError`. -/
def errorMessageEl (errorDiv : Element) : Option Nat :=
  errorDiv.querySelector (.tag "div")

/-- The assignment `messageEl.textContent = message`, when `messageEl` is not `null`. -/
def setMessage (e : Element) (messageEl : Option Nat) (message : String) : Element :=
  match messageEl with
  | some k => { e with descendants := modifyAt e.descendants k fun m => { m with textContent := message } }
  | none => e

/-- The function `showFormSuccess(form, message)`. -/
def showFormSuccess (form : Form) (message : String) : Form :=
  let successDiv := successDivOf form
  let errorDiv := errorDivOf form
  let shown :=
    match successDiv with
    | some i => modifyAt form.parentElement i fun e =>
        { setMessage e (successMessageEl e) message with display := "block" }
    | none => form.parentElement
  let hidden :=
    match errorDiv with
    | some j => modifyAt shown j fun e => { e with display := "none" }
    | none => shown
  { form with parentElement := hidden }

/-- The function `showFormError(form, message)`. -/
def showFormError (form : Form) (message : String) : Form :=
  let errorDiv := errorDivOf form
  let successDiv := successDivOf form
  let shown :=
    match errorDiv with
    | some j => modifyAt form.parentElement j fun e =>
        { setMessage e (errorMessageEl e) message with display := "block" }
    | none => form.parentElement
  let hidden :=
    match successDiv with
    | some i => modifyAt shown i fun e => { e with display := "none" }
    | none => shown
  { form with parentElement := hidden }

/-- A call of one of the two presenters. -/
inductive Presenter where
  | success : String → Presenter
  | error : String → Presenter
  deriving DecidableEq, Repr

/-- Runs one presenter call. -/
def Presenter.run (form : Form) : Presenter → Form
  | .success message => showFormSuccess form message
  | .error message => showFormError form message

/-- Runs a sequence of presenter calls, first to last. -/
def runPresenters (form : Form) (calls : List Presenter) : Form :=
  calls.foldl Presenter.run form

/-- The value of `style.display` of the element at an index below the parent. -/
def displayAt (form : Form) (i : Nat) : Option String :=
  form.parentElement[i]?.map (·.display)

/-- The text of the message slot `k` of the element at index `i`. -/
def messageAt (form : Form) (i k : Nat) : Option String :=
  form.parentElement[i]?.bind fun e => e.descendants[k]?.map (·.textContent)

/-! ## Submit handlers -/

/-- The object `data` built by the contact-form handler. -/
structure ContactData where
  name : Option String
  email : Option String
  company : Option String
  service : Option String
  message : Option String
  timestamp : String
  deriving DecidableEq, Repr

/-- An argument of `console.log`. -/
inductive LogArg where
  | text : String → LogArg
  | value : Option String → LogArg
  | data : ContactData → LogArg
  deriving DecidableEq, Repr

/-- The calls a submit handler makes, in order. -/
inductive Call where
  | preventDefault : Call
  | showFormError : String → Call
  | showFormSuccess : String → Call
  | consoleLog : List LogArg → Call
  | reset : Call
  deriving DecidableEq, Repr

/-- The outcome of a handler that ran to its end: the calls it made and the
form it leaves. -/
structure Run where
  calls : List Call
  form : Form
  deriving DecidableEq, Repr

/-- The submit listener installed by `initContactForm`; `now` is the value of
`new Date().toISOString()`. -/
def contactSubmit (now : String) (contactForm : Form) : Run :=
  let formData := contactForm.formData
  let data : ContactData :=
    { name := formDataGet formData "name"
      email := formDataGet formData "Email"
      company := formDataGet formData "Company"
      service := formDataGet formData "Service"
      message := formDataGet formData "Message"
      timestamp := now }
  if !truthy data.name || !truthy data.email || !truthy data.company || !truthy data.message then
    { calls := [.preventDefault, .showFormError "Please fill in all required fields."]
      form := showFormError contactForm "Please fill in all required fields." }
  else if !isValidEmail (toJsString data.email) then
    { calls := [.preventDefault, .showFormError "Please enter a valid email address."]
      form := showFormError contactForm "Please enter a valid email address." }
  else
    let thanks :=
      "Thank you! We\x27ll be in touch within 24 hours to discuss your AI automation needs."
    { calls :=
        [.preventDefault,
         .consoleLog [.text "Contact Form Submission:", .data data],
         .consoleLog [.text ("New inquiry from " ++ toJsString data.company ++
            " interested in: " ++ toJsString data.service)],
         .showFormSuccess thanks,
         .reset]
      form := (showFormSuccess contactForm thanks).reset }

/-- The submit listener installed by `initNewsletterForm` on each form. -/
def newsletterSubmit (form : Form) : Run :=
  let formData := form.formData
  let email := formDataGet formData "email"
  if !isValidEmail (toJsString email) then
    { calls := [.preventDefault, .showFormError "Please enter a valid email address."]
      form := showFormError form "Please enter a valid email address." }
  else
    let welcome :=
      "Welcome to our community! You\x27ll receive our next AI automation insight soon."
    { calls :=
        [.preventDefault,
         .consoleLog [.text "Newsletter Subscription:", .value email],
         .showFormSuccess welcome,
         .reset]
      form := (showFormSuccess form welcome).reset }

/-! ## Accordion -/

/-- An element `.faq_answer-wrap`: the inline styles the script writes and its
`scrollHeight`. -/
structure AnswerWrap where
  maxHeight : String
  opacity : String
  transition : String
  scrollHeight : Nat
  deriving DecidableEq, Repr

/-- The test `isOpen` of the click listener. -/
def AnswerWrap.isOpen (answer : AnswerWrap) : Bool :=
  answer.maxHeight != "" && answer.maxHeight != "0px"

/-- The body of the loop that closes every answer. -/
def AnswerWrap.close (wrap : AnswerWrap) : AnswerWrap :=
  { wrap with maxHeight := "0px", opacity := "0" }

/-- The branch that opens the clicked answer. -/
def AnswerWrap.expand (answer : AnswerWrap) : AnswerWrap :=
  { answer with
    maxHeight := toString answer.scrollHeight ++ "px"
    opacity := "1"
    transition := "max-height 0.3s ease, opacity 0.3s ease" }

/-- The click listener installed by `initFAQAccordions`, for the button whose
accordion has the answer at index `answer` of
`document.querySelectorAll('.faq_answer-wrap')`; `none` when the button has no
such answer (the listener throws). -/
def faqButtonClick (wraps : List AnswerWrap) (answer : Nat) : Option (List AnswerWrap) :=
  match wraps[answer]? with
  | none => none
  | some a =>
    let isOpen := a.isOpen
    let closed := wraps.map AnswerWrap.close
    if !isOpen then some (modifyAt closed answer AnswerWrap.expand) else some closed

/-! ## Smooth scrolling -/

/-- What `document.querySelector(href)` gives: an element, `null`, or a
`SyntaxError` for a string that is not a selector. -/
inductive QueryResult where
  | element : Nat → QueryResult
  | null : QueryResult
  | syntaxError : QueryResult
  deriving DecidableEq, Repr

/-- What a click on an anchor link did. -/
structure ClickResult where
  defaultPrevented : Bool
  scrolledIntoView : Option Nat
  threw : Bool
  deriving DecidableEq, Repr

/-- The click listener installed by `initSmoothScrolling`. -/
def smoothScrollClick (querySelector : String → QueryResult) (href : String) : ClickResult :=
  if jsLength href > 1 then
    match querySelector href with
    | .element target => { defaultPrevented := true, scrolledIntoView := some target, threw := false }
    | .null => { defaultPrevented := true, scrolledIntoView := none, threw := false }
    | .syntaxError => { defaultPrevented := true, scrolledIntoView := none, threw := true }
  else
    { defaultPrevented := false, scrolledIntoView := none, threw := false }

/-! ## Brands marquee -/

/-- A child of the brands list: its classes and the rest of its subtree. -/
structure BrandsItem where
  classList : List String
  content : String
  deriving DecidableEq, Repr

/-- The element `.brands_list`. -/
structure BrandsList where
  classList : List String
  children : List BrandsItem
  mouseenterListeners : Nat
  mouseleaveListeners : Nat
  deriving DecidableEq, Repr

/-- The loop body: `cloneNode(true)` followed by `classList.add`. -/
def BrandsItem.clone (item : BrandsItem) : BrandsItem :=
  { item with classList := classListAdd item.classList "brands_item-clone" }

/-- The function `initBrandsListLoop` on the list it finds. -/
def BrandsList.init (brandsList : BrandsList) : BrandsList :=
  let duplicated : BrandsList :=
    if !brandsList.classList.contains "marquee-ready" then
      let brandsItems := brandsList.children
      { brandsList with
        children := brandsItems.foldl (fun children item => children ++ [item.clone])
          brandsList.children
        classList := classListAdd brandsList.classList "marquee-ready" }
    else brandsList
  { duplicated with
    classList := classListAdd duplicated.classList "brands_list-marquee"
    mouseenterListeners := duplicated.mouseenterListeners + 1
    mouseleaveListeners := duplicated.mouseleaveListeners + 1 }

/-- The function `initBrandsListLoop()`: the page has a brands list or none. -/
def initBrandsListLoop (page : Option BrandsList) : Option BrandsList :=
  match page with
  | none => none
  | some brandsList => some brandsList.init

/-! ## Field validation on blur -/

/-- A form field with the elements below `field.parentElement`, in document
order; annotations hold text only. -/
structure Field where
  value : String
  required : Bool
  type : String
  borderColor : String
  parentElement : List Leaf
  deriving DecidableEq, Repr

/-- The function `hideFieldError(field)`. -/
def hideFieldError (field : Field) : Field :=
  match queryFirst (Leaf.matchesSel (.cls "field-error")) field.parentElement with
  | some existingError => { field with parentElement := field.parentElement.eraseIdx existingError }
  | none => field

/-- The function `showFieldError(field, message)`. -/
def showFieldError (field : Field) (message : String) : Field :=
  let field := hideFieldError field
  let errorEl : Leaf :=
    { tagName := "div"
      classList := ["field-error"]
      textContent := message
      cssText := "color: #dc2626; font-size: 0.875rem; margin-top: 0.25rem;" }
  { field with parentElement := field.parentElement ++ [errorEl] }

/-- The function `validateField(field)`: the returned flag and the field after
the visual feedback. -/
def validateField (field : Field) : Bool × Field :=
  let value := jsTrim field.value
  let verdict : Bool × String :=
    if field.required && value == "" then (false, "This field is required")
    else if field.type == "email" && value != "" && !isValidEmail value then
      (false, "Please enter a valid email address")
    else (true, "")
  if !verdict.1 then
    (verdict.1, showFieldError { field with borderColor := "#dc2626" } verdict.2)
  else
    (verdict.1, hideFieldError { field with borderColor := "#059669" })

/-- The number of `.field-error` annotations below the parent of a field. -/
def fieldErrorCount (field : Field) : Nat :=
  field.parentElement.countP (Leaf.matchesSel (.cls "field-error"))

/-- The blur listener: `validateField` for its effect. -/
def blur (field : Field) : Field := (validateField field).2

/-- The user typing a new value into a field. -/
def Field.fill (field : Field) (value : String) : Field := { field with value := value }

/-! ## Correctness of the matcher -/

namespace RegExp

theorem nullable_iff (r : RegExp) : nullable r = true ↔ Lang r [] := by
  induction r with
  | empty => simp [nullable, Lang]
  | eps => simp [nullable, Lang]
  | cls p => simp [nullable, Lang]
  | seq a b iha ihb =>
    simp only [nullable, Lang, Bool.and_eq_true, iha, ihb]
    constructor
    · rintro ⟨ha, hb⟩
      exact ⟨[], [], rfl, ha, hb⟩
    · rintro ⟨u, v, huv, ha, hb⟩
      have h := List.append_eq_nil.mp huv.symm
      rw [h.1] at ha
      rw [h.2] at hb
      exact ⟨ha, hb⟩
  | alt a b iha ihb => simp [nullable, Lang, iha, ihb]
  | star a _ =>
    simp only [nullable, Lang, true_iff]
    exact ⟨[], rfl, by simp⟩

theorem lang_star_cons (a : RegExp) (c : Char) (s : List Char) :
    Lang (star a) (c :: s) ↔ ∃ u v, s = u ++ v ∧ Lang a (c :: u) ∧ Lang (star a) v := by
  constructor
  · rintro ⟨L, hL, hall⟩
    induction L with
    | nil => simp at hL
    | cons w L ih =>
      cases w with
      | nil =>
        simp only [List.flatten_cons, List.nil_append] at hL
        exact ih hL (fun u hu => hall u (List.mem_cons_of_mem _ hu))
      | cons d w =>
        simp only [List.flatten_cons, List.cons_append, List.cons.injEq] at hL
        obtain ⟨hc, hs⟩ := hL
        subst hc
        exact ⟨w, L.flatten, hs, hall _ (List.mem_cons_self _ _),
          L, rfl, fun u hu => hall u (List.mem_cons_of_mem _ hu)⟩
  · rintro ⟨u, v, hs, hu, L, hv, hall⟩
    refine ⟨(c :: u) :: L, ?_, ?_⟩
    · simp [hs, hv]
    · intro w hw
      rcases List.mem_cons.mp hw with h | h
      · rw [h]; exact hu
      · exact hall w h

theorem lang_deriv (r : RegExp) (c : Char) (s : List Char) :
    Lang (deriv r c) s ↔ Lang r (c :: s) := by
  induction r generalizing s with
  | empty => simp [deriv, Lang]
  | eps => simp [deriv, Lang]
  | cls p =>
    by_cases hp : p c = true
    · simp only [deriv, hp, if_true, Lang]
      constructor
      · intro h
        exact ⟨c, by rw [h], hp⟩
      · rintro ⟨d, hd, _⟩
        simp only [List.cons.injEq] at hd
        exact hd.2
    · simp only [deriv, hp, Lang, Bool.false_eq_true, if_false, false_iff]
      rintro ⟨d, hd, hpd⟩
      simp only [List.cons.injEq] at hd
      rw [← hd.1] at hpd
      exact hp hpd
  | seq a b iha ihb =>
    have key : Lang (seq a b) (c :: s) ↔
        (∃ u v, s = u ++ v ∧ Lang a (c :: u) ∧ Lang b v) ∨ (Lang a [] ∧ Lang b (c :: s)) := by
      constructor
      · rintro ⟨u, v, huv, ha, hb⟩
        cases u with
        | nil =>
          right
          simp only [List.nil_append] at huv
          rw [huv]
          exact ⟨ha, hb⟩
        | cons d u =>
          left
          simp only [List.cons_append, List.cons.injEq] at huv
          obtain ⟨hc, hs⟩ := huv
          subst hc
          exact ⟨u, v, hs, ha, hb⟩
      · rintro (⟨u, v, hs, ha, hb⟩ | ⟨ha, hb⟩)
        · exact ⟨c :: u, v, by simp [hs], ha, hb⟩
        · exact ⟨[], c :: s, rfl, ha, hb⟩
    rw [key]
    by_cases hn : nullable a = true
    · simp only [deriv, hn, if_true, Lang, iha, ihb]
      have hnil : Lang a [] := (nullable_iff a).mp hn
      simp [hnil]
    · simp only [deriv, hn, Bool.false_eq_true, if_false, Lang, iha]
      have hnil : ¬ Lang a [] := fun h => hn ((nullable_iff a).mpr h)
      simp [hnil]
  | alt a b iha ihb => simp [deriv, Lang, iha, ihb]
  | star a iha =>
    rw [lang_star_cons]
    simp only [deriv, Lang, iha]

theorem matchChars_iff (r : RegExp) (s : List Char) : matchChars r s = true ↔ Lang r s := by
  induction s generalizing r with
  | nil => simpa [matchChars] using nullable_iff r
  | cons c cs ih => rw [matchChars, ih, lang_deriv]

theorem lang_plus_cls (p : Char → Bool) (s : List Char) :
    Lang (plus (cls p)) s ↔ s ≠ [] ∧ ∀ c ∈ s, p c = true := by
  constructor
  · rintro ⟨u, v, hs, ⟨c, hu, hc⟩, L, hv, hall⟩
    subst hs hu hv
    refine ⟨by simp, ?_⟩
    intro d hd
    simp only [List.singleton_append, List.mem_cons, List.mem_flatten] at hd
    rcases hd with h | ⟨w, hw, hdw⟩
    · rw [h]; exact hc
    · obtain ⟨e, he, hpe⟩ := hall w hw
      rw [he] at hdw
      simp only [List.mem_singleton] at hdw
      rw [hdw]; exact hpe
  · rintro ⟨hne, hall⟩
    cases s with
    | nil => exact absurd rfl hne
    | cons c cs =>
      refine ⟨[c], cs, rfl, ⟨c, rfl, hall c (List.mem_cons_self _ _)⟩,
        cs.map (fun d => [d]), ?_, ?_⟩
      · clear hall hne
        induction cs with
        | nil => rfl
        | cons d ds ih => simp [← ih]
      · intro w hw
        obtain ⟨d, hd, hdw⟩ := List.mem_map.mp hw
        exact ⟨d, hdw.symm, hall d (List.mem_cons_of_mem _ hd)⟩

theorem lang_seq (a b : RegExp) (s : List Char) :
    Lang (seq a b) s ↔ ∃ u v, s = u ++ v ∧ Lang a u ∧ Lang b v := by
  simp only [Lang]

theorem lang_chr (c : Char) (s : List Char) : Lang (chr c) s ↔ s = [c] := by
  simp only [chr, Lang, beq_iff_eq]
  constructor
  · rintro ⟨d, hs, hd⟩
    rw [hs, hd]
  · intro h
    exact ⟨c, h, rfl⟩

end RegExp

/-- The shape of the inputs `isValidEmail` accepts: three non-empty runs of
characters of the class `[^\s@]`, separated by `@` and by `.`. -/
theorem isValidEmail_iff (email : String) :
    isValidEmail email = true ↔
      ∃ l d t : List Char, l ≠ [] ∧ d ≠ [] ∧ t ≠ [] ∧
        (∀ c ∈ l, notSpaceAt c = true) ∧ (∀ c ∈ d, notSpaceAt c = true) ∧
        (∀ c ∈ t, notSpaceAt c = true) ∧ email.data = l ++ '@' :: (d ++ '.' :: t) := by
  unfold isValidEmail RegExp.test
  rw [RegExp.matchChars_iff]
  simp only [emailRegex, RegExp.lang_seq, RegExp.lang_chr, RegExp.lang_plus_cls]
  constructor
  · rintro ⟨l, r1, h1, ⟨hl, hlall⟩, a, r2, h2, ha, d, r3, h3, ⟨hd, hdall⟩, b, t, h4, hb, ht, htall⟩
    refine ⟨l, d, t, hl, hd, ht, hlall, hdall, htall, ?_⟩
    rw [h1, h2, h3, h4, ha, hb]
    simp
  · rintro ⟨l, d, t, hl, hd, ht, hlall, hdall, htall, hs⟩
    exact ⟨l, _, hs, ⟨hl, hlall⟩, ['@'], _, rfl, rfl, d, _, rfl, ⟨hd, hdall⟩,
      ['.'], t, rfl, rfl, ht, htall⟩

/-! ## Lemmas on values -/

theorem truthy_eq_false_iff (v : Option String) : truthy v = false ↔ isBlank v := by
  cases v with
  | none => simp [truthy, isBlank]
  | some s => simp [truthy, isBlank]

theorem truthy_some {s : String} (h : s ≠ "") : truthy (some s) = true := by
  simp [truthy, h]

theorem data_ne_nil {s : String} (h : s ≠ "") : s.data ≠ [] := by
  intro hd
  apply h
  exact String.ext hd

theorem notSpaceAt_of {c : Char} (hw : isJsWhitespace c = false) (ha : c ≠ '@') :
    notSpaceAt c = true := by
  simp [notSpaceAt, hw, ha]

/-- Every character of an accepted address is outside `\s`. -/
theorem isValidEmail_no_whitespace {email : String} (h : isValidEmail email = true) :
    ∀ c ∈ email.data, isJsWhitespace c = false := by
  obtain ⟨l, d, t, _, _, _, hl, hd, ht, hs⟩ := (isValidEmail_iff email).mp h
  intro c hc
  rw [hs] at hc
  have hns : ∀ x, notSpaceAt x = true → isJsWhitespace x = false := by
    intro x hx
    simp only [notSpaceAt, Bool.not_eq_true', Bool.or_eq_false_iff] at hx
    exact hx.1
  simp only [List.mem_append, List.mem_cons] at hc
  rcases hc with h1 | h2 | h3 | h4 | h5
  · exact hns c (hl c h1)
  · rw [h2]; decide
  · exact hns c (hd c h3)
  · rw [h4]; decide
  · exact hns c (ht c h5)

/-! ## Lemmas on lists of elements -/

theorem queryFirst_lt {α : Type} (p : α → Bool) (l : List α) (i : Nat)
    (h : queryFirst p l = some i) : i < l.length := by
  induction l generalizing i with
  | nil => simp [queryFirst] at h
  | cons x xs ih =>
    simp only [queryFirst] at h
    split at h
    · cases h
      simp
    · cases hq : queryFirst p xs with
      | none => simp [hq] at h
      | some k =>
        simp only [hq, Option.map_some', Option.some.injEq] at h
        subst h
        simp only [List.length_cons]
        exact Nat.succ_lt_succ (ih k hq)

theorem queryFirst_congr {α : Type} (p : α → Bool) (l l2 : List α)
    (h : l2.map p = l.map p) : queryFirst p l2 = queryFirst p l := by
  induction l generalizing l2 with
  | nil =>
    cases l2 with
    | nil => rfl
    | cons y ys => simp at h
  | cons x xs ih =>
    cases l2 with
    | nil => simp at h
    | cons y ys =>
      simp only [List.map_cons, List.cons.injEq] at h
      simp only [queryFirst, h.1, ih ys h.2]

theorem length_modifyAt {α : Type} (l : List α) (i : Nat) (f : α → α) :
    (modifyAt l i f).length = l.length := by
  unfold modifyAt
  split <;> simp

theorem getElem?_modifyAt_self {α : Type} (l : List α) (i : Nat) (f : α → α) :
    (modifyAt l i f)[i]? = l[i]?.map f := by
  unfold modifyAt
  split
  · next x hx =>
    have hlt : i < l.length := (List.getElem?_eq_some_iff.mp hx).1
    simp [hx, List.getElem?_set, hlt]
  · next hx => simp [hx]

theorem getElem?_modifyAt_ne {α : Type} (l : List α) (i j : Nat) (f : α → α) (h : i ≠ j) :
    (modifyAt l i f)[j]? = l[j]? := by
  unfold modifyAt
  split
  · simp [List.getElem?_set, h]
  · rfl

theorem map_modifyAt {α β : Type} (l : List α) (i : Nat) (f : α → α) (g : α → β)
    (h : ∀ x, g (f x) = g x) : (modifyAt l i f).map g = l.map g := by
  apply List.ext_getElem?
  intro k
  by_cases hk : i = k
  · subst hk
    simp only [List.getElem?_map, getElem?_modifyAt_self, Option.map_map]
    cases l[i]? with
    | none => rfl
    | some x => simp [h]
  · simp only [List.getElem?_map, getElem?_modifyAt_ne l i k f hk]

/-! ## Lemmas on the presenters -/

theorem parentQuery_showFormSuccess (form : Form) (message : String) (sel : Selector) :
    (showFormSuccess form message).parentQuery sel = form.parentQuery sel := by
  unfold showFormSuccess Form.parentQuery
  apply queryFirst_congr
  simp only
  cases successDivOf form <;> cases errorDivOf form <;> simp only
  · rw [map_modifyAt]
    intro x; cases sel <;> rfl
  · rw [map_modifyAt]
    intro x
    cases sel <;> cases successMessageEl x <;> rfl
  · rw [map_modifyAt, map_modifyAt]
    · intro x
      cases sel <;> cases successMessageEl x <;> rfl
    · intro x; cases sel <;> rfl

theorem parentQuery_showFormError (form : Form) (message : String) (sel : Selector) :
    (showFormError form message).parentQuery sel = form.parentQuery sel := by
  unfold showFormError Form.parentQuery
  apply queryFirst_congr
  simp only
  cases successDivOf form <;> cases errorDivOf form <;> simp only
  · rw [map_modifyAt]
    intro x
    cases sel <;> cases errorMessageEl x <;> rfl
  · rw [map_modifyAt]
    intro x; cases sel <;> rfl
  · rw [map_modifyAt, map_modifyAt]
    · intro x
      cases sel <;> cases errorMessageEl x <;> rfl
    · intro x; cases sel <;> rfl

theorem successDivOf_run (form : Form) (call : Presenter) :
    successDivOf (call.run form) = successDivOf form := by
  cases call <;>
    simp only [Presenter.run, successDivOf, parentQuery_showFormSuccess,
      parentQuery_showFormError]

theorem errorDivOf_run (form : Form) (call : Presenter) :
    errorDivOf (call.run form) = errorDivOf form := by
  cases call <;>
    simp only [Presenter.run, errorDivOf, parentQuery_showFormSuccess,
      parentQuery_showFormError]

theorem orElseNull_lt {α : Type} (p q : α → Bool) (l : List α) (i : Nat)
    (h : orElseNull (queryFirst p l) (queryFirst q l) = some i) : i < l.length := by
  cases hp : queryFirst p l with
  | some k =>
    rw [hp] at h
    simp only [orElseNull, Option.some.injEq] at h
    subst h
    exact queryFirst_lt p l k hp
  | none =>
    rw [hp] at h
    exact queryFirst_lt q l i h

theorem successDivOf_lt (form : Form) (i : Nat) (h : successDivOf form = some i) :
    i < form.parentElement.length :=
  orElseNull_lt _ _ _ i h

theorem errorDivOf_lt (form : Form) (j : Nat) (h : errorDivOf form = some j) :
    j < form.parentElement.length :=
  orElseNull_lt _ _ _ j h

theorem showFormSuccess_spec (form : Form) (i j : Nat)
    (hs : successDivOf form = some i) (he : errorDivOf form = some j) (hij : i ≠ j)
    (message : String) :
    displayAt (showFormSuccess form message) i = some "block" ∧
    displayAt (showFormSuccess form message) j = some "none" ∧
    ∀ e k, form.parentElement[i]? = some e → successMessageEl e = some k →
      messageAt (showFormSuccess form message) i k = some message := by
  have hi := successDivOf_lt form i hs
  have hj := errorDivOf_lt form j he
  have hgi : form.parentElement[i]? = some form.parentElement[i] := List.getElem?_eq_getElem hi
  have hgj : form.parentElement[j]? = some form.parentElement[j] := List.getElem?_eq_getElem hj
  simp only [showFormSuccess, hs, he, displayAt, messageAt]
  refine ⟨?_, ?_, ?_⟩
  · rw [getElem?_modifyAt_ne _ j i _ (Ne.symm hij), getElem?_modifyAt_self, hgi]
    rfl
  · rw [getElem?_modifyAt_self, getElem?_modifyAt_ne _ i j _ hij, hgj]
    rfl
  · intro e k hei hk
    rw [getElem?_modifyAt_ne _ j i _ (Ne.symm hij), getElem?_modifyAt_self, hei]
    have hklt : k < e.descendants.length := orElseNull_lt _ _ _ k hk
    simp only [Option.map_some', Option.some_bind, hk, setMessage, getElem?_modifyAt_self,
      List.getElem?_eq_getElem hklt]

theorem showFormError_spec (form : Form) (i j : Nat)
    (hs : successDivOf form = some i) (he : errorDivOf form = some j) (hij : i ≠ j)
    (message : String) :
    displayAt (showFormError form message) j = some "block" ∧
    displayAt (showFormError form message) i = some "none" ∧
    ∀ e k, form.parentElement[j]? = some e → errorMessageEl e = some k →
      messageAt (showFormError form message) j k = some message := by
  have hi := successDivOf_lt form i hs
  have hj := errorDivOf_lt form j he
  have hgi : form.parentElement[i]? = some form.parentElement[i] := List.getElem?_eq_getElem hi
  have hgj : form.parentElement[j]? = some form.parentElement[j] := List.getElem?_eq_getElem hj
  simp only [showFormError, hs, he, displayAt, messageAt]
  refine ⟨?_, ?_, ?_⟩
  · rw [getElem?_modifyAt_ne _ i j _ hij, getElem?_modifyAt_self, hgj]
    rfl
  · rw [getElem?_modifyAt_self, getElem?_modifyAt_ne _ j i _ (Ne.symm hij), hgi]
    rfl
  · intro e k hej hk
    rw [getElem?_modifyAt_ne _ i j _ hij, getElem?_modifyAt_self, hej]
    have hklt : k < e.descendants.length := queryFirst_lt _ _ k hk
    simp only [Option.map_some', Option.some_bind, hk, setMessage, getElem?_modifyAt_self,
      List.getElem?_eq_getElem hklt]

theorem successDivOf_runPresenters (form : Form) (calls : List Presenter) :
    successDivOf (runPresenters form calls) = successDivOf form := by
  induction calls generalizing form with
  | nil => rfl
  | cons c cs ih =>
    simp only [runPresenters, List.foldl_cons] at ih ⊢
    rw [ih, successDivOf_run]

theorem errorDivOf_runPresenters (form : Form) (calls : List Presenter) :
    errorDivOf (runPresenters form calls) = errorDivOf form := by
  induction calls generalizing form with
  | nil => rfl
  | cons c cs ih =>
    simp only [runPresenters, List.foldl_cons] at ih ⊢
    rw [ih, errorDivOf_run]

/-! ## Lemmas on the accordion -/

theorem modifyAt_cons_zero {α : Type} (x : α) (xs : List α) (f : α → α) :
    modifyAt (x :: xs) 0 f = f x :: xs := by
  simp [modifyAt]

theorem modifyAt_cons_succ {α : Type} (x : α) (xs : List α) (k : Nat) (f : α → α) :
    modifyAt (x :: xs) (k + 1) f = x :: modifyAt xs k f := by
  simp only [modifyAt, List.getElem?_cons_succ]
  cases xs[k]? <;> simp

theorem countP_eq_zero_of_all_false {α : Type} (p : α → Bool) (l : List α)
    (h : ∀ x ∈ l, p x = false) : l.countP p = 0 := by
  rw [List.countP_eq_zero]
  intro x hx
  simp [h x hx]

theorem countP_modifyAt_le_one {α : Type} (p : α → Bool) (l : List α) (k : Nat) (f : α → α)
    (h : ∀ x ∈ l, p x = false) : (modifyAt l k f).countP p ≤ 1 := by
  induction l generalizing k with
  | nil => simp [modifyAt]
  | cons x xs ih =>
    have hxs : ∀ y ∈ xs, p y = false := fun y hy => h y (List.mem_cons_of_mem _ hy)
    cases k with
    | zero =>
      rw [modifyAt_cons_zero, List.countP_cons, countP_eq_zero_of_all_false p xs hxs]
      split <;> simp
    | succ k =>
      rw [modifyAt_cons_succ, List.countP_cons, h x (List.mem_cons_self _ _)]
      simpa using ih k hxs

theorem eq_of_countP_le_one {α : Type} (p : α → Bool) (l : List α) (i j : Nat) (a b : α)
    (h : l.countP p ≤ 1) (hi : l[i]? = some a) (ha : p a = true)
    (hj : l[j]? = some b) (hb : p b = true) : i = j := by
  induction l generalizing i j with
  | nil => simp at hi
  | cons x xs ih =>
    rw [List.countP_cons] at h
    cases i with
    | zero =>
      cases j with
      | zero => rfl
      | succ j =>
        simp only [List.getElem?_cons_zero, Option.some.injEq] at hi
        simp only [List.getElem?_cons_succ] at hj
        have hpos : 0 < xs.countP p :=
          List.countP_pos_iff.mpr ⟨b, List.getElem?_mem hj, hb⟩
        rw [hi, ha] at h
        simp only [if_true] at h
        omega
    | succ i =>
      simp only [List.getElem?_cons_succ] at hi
      have hpos : 0 < xs.countP p :=
        List.countP_pos_iff.mpr ⟨a, List.getElem?_mem hi, ha⟩
      cases j with
      | zero =>
        simp only [List.getElem?_cons_zero, Option.some.injEq] at hj
        rw [hj, hb] at h
        simp only [if_true] at h
        omega
      | succ j =>
        simp only [List.getElem?_cons_succ] at hj
        have hle : xs.countP p ≤ 1 := by omega
        rw [ih i j hle hi hj]

theorem isOpen_close (w : AnswerWrap) : w.close.isOpen = false := by
  simp [AnswerWrap.close, AnswerWrap.isOpen]

theorem faqButtonClick_of_closed (wraps : List AnswerWrap) (k : Nat) (b : AnswerWrap)
    (hb : wraps[k]? = some b) (hclosed : b.isOpen = false) :
    faqButtonClick wraps k = some (modifyAt (wraps.map AnswerWrap.close) k AnswerWrap.expand) := by
  simp [faqButtonClick, hb, hclosed]

theorem faqButtonClick_of_open (wraps : List AnswerWrap) (k : Nat) (b : AnswerWrap)
    (hb : wraps[k]? = some b) (hopen : b.isOpen = true) :
    faqButtonClick wraps k = some (wraps.map AnswerWrap.close) := by
  simp [faqButtonClick, hb, hopen]

/-! ## Lemmas on field annotations -/

theorem countP_eraseIdx_queryFirst {α : Type} (p : α → Bool) (l : List α) (i : Nat)
    (h : queryFirst p l = some i) : (l.eraseIdx i).countP p = l.countP p - 1 := by
  induction l generalizing i with
  | nil => simp [queryFirst] at h
  | cons x xs ih =>
    simp only [queryFirst] at h
    by_cases hx : p x = true
    · simp only [hx, if_true, Option.some.injEq] at h
      subst h
      simp [List.countP_cons, hx]
    · simp only [hx, Bool.false_eq_true, if_false] at h
      cases hq : queryFirst p xs with
      | none => simp [hq] at h
      | some k =>
        simp only [hq, Option.map_some', Option.some.injEq] at h
        subst h
        simp only [List.eraseIdx_cons_succ, List.countP_cons, hx, Bool.false_eq_true, if_false,
          Nat.add_zero]
        exact ih k hq

theorem countP_of_queryFirst_none {α : Type} (p : α → Bool) (l : List α)
    (h : queryFirst p l = none) : l.countP p = 0 := by
  induction l with
  | nil => rfl
  | cons x xs ih =>
    simp only [queryFirst] at h
    by_cases hx : p x = true
    · simp [hx] at h
    · simp only [hx, Bool.false_eq_true, if_false, Option.map_eq_none'] at h
      simp [List.countP_cons, hx, ih h]

theorem fieldErrorCount_hideFieldError (field : Field) :
    fieldErrorCount (hideFieldError field) = fieldErrorCount field - 1 := by
  unfold hideFieldError fieldErrorCount
  split
  · next k hk => exact countP_eraseIdx_queryFirst _ _ k hk
  · next hk => simp [countP_of_queryFirst_none _ _ hk]

theorem fieldErrorCount_showFieldError (field : Field) (message : String) :
    fieldErrorCount (showFieldError field message) = fieldErrorCount field - 1 + 1 := by
  have h := fieldErrorCount_hideFieldError field
  unfold fieldErrorCount at h ⊢
  simp only [showFieldError, List.countP_append, h]
  rfl

theorem blur_of_required_empty (field : Field) (hreq : field.required = true)
    (hempty : jsTrim field.value = "") :
    blur field =
      showFieldError { field with borderColor := "#dc2626" } "This field is required" := by
  simp [blur, validateField, hreq, hempty]

theorem blur_of_valid (field : Field) (hfilled : jsTrim field.value ≠ "")
    (hemail : field.type = "email" → isValidEmail (jsTrim field.value) = true) :
    blur field = hideFieldError { field with borderColor := "#059669" } := by
  by_cases ht : field.type = "email"
  · simp [blur, validateField, hfilled, ht, hemail ht]
  · simp [blur, validateField, hfilled, ht]

theorem hideFieldError_frame (field : Field) :
    (hideFieldError field).value = field.value ∧
      (hideFieldError field).required = field.required ∧
      (hideFieldError field).type = field.type := by
  unfold hideFieldError
  split <;> exact ⟨rfl, rfl, rfl⟩

theorem showFieldError_frame (field : Field) (message : String) :
    (showFieldError field message).value = field.value ∧
      (showFieldError field message).required = field.required ∧
      (showFieldError field message).type = field.type :=
  hideFieldError_frame field

theorem blur_cases (field : Field) :
    (∃ message, blur field = showFieldError { field with borderColor := "#dc2626" } message) ∨
      blur field = hideFieldError { field with borderColor := "#059669" } := by
  unfold blur validateField
  dsimp only
  split_ifs <;> first | exact Or.inl ⟨_, rfl⟩ | exact Or.inr rfl

theorem blur_frame (field : Field) :
    (blur field).value = field.value ∧ (blur field).required = field.required ∧
      (blur field).type = field.type := by
  rcases blur_cases field with ⟨message, h⟩ | h
  · rw [h]
    exact showFieldError_frame _ message
  · rw [h]
    exact hideFieldError_frame _

theorem blur_iterate_frame (field : Field) (n : Nat) :
    (blur^[n] field).value = field.value ∧ (blur^[n] field).required = field.required ∧
      (blur^[n] field).type = field.type := by
  induction n with
  | zero => exact ⟨rfl, rfl, rfl⟩
  | succ n ih =>
    rw [Function.iterate_succ_apply']
    have h := blur_frame (blur^[n] field)
    exact ⟨h.1.trans ih.1, h.2.1.trans ih.2.1, h.2.2.trans ih.2.2⟩

theorem fieldErrorCount_blur_required_empty (field : Field) (hreq : field.required = true)
    (hempty : jsTrim field.value = "") (hcount : fieldErrorCount field ≤ 1) :
    fieldErrorCount (blur field) = 1 := by
  rw [blur_of_required_empty field hreq hempty, fieldErrorCount_showFieldError]
  have : fieldErrorCount { field with borderColor := "#dc2626" } = fieldErrorCount field := rfl
  omega

theorem fieldErrorCount_blur_iterate (field : Field) (hreq : field.required = true)
    (hempty : jsTrim field.value = "") (hcount : fieldErrorCount field ≤ 1) (n : Nat) :
    fieldErrorCount (blur^[n + 1] field) = 1 := by
  induction n with
  | zero => exact fieldErrorCount_blur_required_empty field hreq hempty hcount
  | succ n ih =>
    rw [Function.iterate_succ_apply']
    have hf := blur_iterate_frame field (n + 1)
    apply fieldErrorCount_blur_required_empty
    · rw [hf.2.1, hreq]
    · rw [hf.1, hempty]
    · omega

/-! ## Lemmas on the marquee -/

theorem foldl_append_clone (items acc : List BrandsItem) :
    items.foldl (fun children item => children ++ [item.clone]) acc =
      acc ++ items.map BrandsItem.clone := by
  induction items generalizing acc with
  | nil => simp
  | cons x xs ih => simp [ih]

theorem mem_classListAdd (classList : List String) (token : String) :
    token ∈ classListAdd classList token := by
  unfold classListAdd
  split
  · next h => simpa using h
  · simp

theorem mem_classListAdd_of_mem (classList : List String) (token t : String)
    (h : t ∈ classList) : t ∈ classListAdd classList token := by
  unfold classListAdd
  split
  · exact h
  · simp [h]

theorem init_children_of_ready (l : BrandsList) (h : "marquee-ready" ∈ l.classList) :
    l.init.children = l.children ∧ "marquee-ready" ∈ l.init.classList := by
  have hc : l.classList.contains "marquee-ready" = true := by simpa using h
  simp only [BrandsList.init, hc, Bool.not_true, Bool.false_eq_true, if_false, true_and]
  exact mem_classListAdd_of_mem _ _ _ h

theorem init_iterate_of_ready (l : BrandsList) (h : "marquee-ready" ∈ l.classList) (k : Nat) :
    (BrandsList.init^[k] l).children = l.children ∧
      "marquee-ready" ∈ (BrandsList.init^[k] l).classList := by
  induction k with
  | zero => exact ⟨rfl, h⟩
  | succ k ih =>
    rw [Function.iterate_succ_apply']
    have hstep := init_children_of_ready _ ih.2
    exact ⟨hstep.1.trans ih.1, hstep.2⟩

theorem initBrandsListLoop_iterate (l : BrandsList) (k : Nat) :
    initBrandsListLoop^[k] (some l) = some (BrandsList.init^[k] l) := by
  induction k with
  | zero => rfl
  | succ k ih =>
    rw [Function.iterate_succ_apply', Function.iterate_succ_apply', ih]
    rfl

/-! ## Lemmas on string length -/

theorem jsLength_hash_cons (rest : List Char) :
    jsLength ⟨'#' :: rest⟩ > 1 ↔ rest ≠ [] := by
  cases rest with
  | nil => decide
  | cons c cs =>
    simp only [jsLength, List.map_cons, List.sum_cons, ne_eq, reduceCtorEq, not_false_eq_true,
      iff_true]
    have h1 : (if ('#' : Char).val < 65536 then 1 else 2) = 1 := by decide
    rw [h1]
    split <;> omega

/-! ## Claims on `isValidEmail` -/

/-- C3, as stated, fails: `a@b`, `c` and `d` are non-empty and free of white
space, yet `isValidEmail("a@b@c.d")` is false, because the class `[^\s@]`
excludes `@` from every part. -/
theorem isValidEmail_rejects_at_in_local :
    ("a@b" ≠ "" ∧ "c" ≠ "" ∧ "d" ≠ "") ∧
    (∀ c ∈ ("a@b" : String).data, isJsWhitespace c = false) ∧
    (∀ c ∈ ("c" : String).data, isJsWhitespace c = false) ∧
    (∀ c ∈ ("d" : String).data, isJsWhitespace c = false) ∧
    isValidEmail ("a@b" ++ "@" ++ "c" ++ "." ++ "d") = false := by
  decide

/-- C3, amended: for all non-empty strings `local`, `domain` and `tld` that
contain no white-space character and no `@`, `isValidEmail` applied to
`local + "@" + domain + "." + tld` returns true. -/
theorem isValidEmail_accepts_shape (loc domain tld : String)
    (hl : loc ≠ "") (hd : domain ≠ "") (ht : tld ≠ "")
    (hlw : ∀ c ∈ loc.data, isJsWhitespace c = false)
    (hdw : ∀ c ∈ domain.data, isJsWhitespace c = false)
    (htw : ∀ c ∈ tld.data, isJsWhitespace c = false)
    (hla : '@' ∉ loc.data) (hda : '@' ∉ domain.data) (hta : '@' ∉ tld.data) :
    isValidEmail (loc ++ "@" ++ domain ++ "." ++ tld) = true := by
  rw [isValidEmail_iff]
  refine ⟨loc.data, domain.data, tld.data, data_ne_nil hl, data_ne_nil hd, data_ne_nil ht,
    ?_, ?_, ?_, ?_⟩
  · intro c hc
    exact notSpaceAt_of (hlw c hc) (fun h => hla (h ▸ hc))
  · intro c hc
    exact notSpaceAt_of (hdw c hc) (fun h => hda (h ▸ hc))
  · intro c hc
    exact notSpaceAt_of (htw c hc) (fun h => hta (h ▸ hc))
  · simp [String.data_append]

theorem isValidEmail_accepts_shape_witness :
    isValidEmail ("jane.doe" ++ "@" ++ "mail.example" ++ "." ++ "com") = true :=
  isValidEmail_accepts_shape "jane.doe" "mail.example" "com"
    (by decide) (by decide) (by decide) (by decide) (by decide) (by decide)
    (by decide) (by decide) (by decide)

/-- C4: `isValidEmail` returns false for every string that contains no `@`,
for every string in which no `.` occurs after an `@`, and for every string
that contains a white-space character anywhere. -/
theorem isValidEmail_rejects :
    (∀ email : String, '@' ∉ email.data → isValidEmail email = false) ∧
    (∀ email : String, (¬ ∃ u v w : List Char, email.data = u ++ '@' :: (v ++ '.' :: w)) →
      isValidEmail email = false) ∧
    (∀ email : String, (∃ c ∈ email.data, isJsWhitespace c = true) →
      isValidEmail email = false) := by
  refine ⟨?_, ?_, ?_⟩
  · intro email hno
    rw [← Bool.not_eq_true]
    intro h
    obtain ⟨l, d, t, _, _, _, _, _, _, hs⟩ := (isValidEmail_iff email).mp h
    apply hno
    rw [hs]
    simp
  · intro email hno
    rw [← Bool.not_eq_true]
    intro h
    obtain ⟨l, d, t, _, _, _, _, _, _, hs⟩ := (isValidEmail_iff email).mp h
    exact hno ⟨l, d, t, hs⟩
  · rintro email ⟨c, hc, hw⟩
    rw [← Bool.not_eq_true]
    intro h
    have := isValidEmail_no_whitespace h c hc
    rw [hw] at this
    exact Bool.noConfusion this

theorem isValidEmail_rejects_witness :
    isValidEmail "jane.example.com" = false ∧ isValidEmail "jane@examplecom" = false ∧
    isValidEmail "jane doe@example.com" = false :=
  ⟨isValidEmail_rejects.1 "jane.example.com" (by decide),
   isValidEmail_rejects.2.1 "jane@examplecom" (by
     rintro ⟨u, v, w, h⟩
     have hmem : '.' ∈ ("jane@examplecom" : String).data := by
       rw [h]; simp
     revert hmem
     decide),
   isValidEmail_rejects.2.2 "jane doe@example.com" ⟨' ', by decide, by decide⟩⟩

/-! ## Claims on the submit handlers -/

/-- C1: when at least one of the required fields `name`, `Email`, `Company`,
`Message` is absent or empty, whatever the other values are, the contact
handler calls `showFormError` with "Please fill in all required fields.",
never calls `showFormSuccess`, and does not reset the form. -/
theorem contactSubmit_required_missing (now : String) (contactForm : Form)
    (h : isBlank (formDataGet contactForm.formData "name") ∨
         isBlank (formDataGet contactForm.formData "Email") ∨
         isBlank (formDataGet contactForm.formData "Company") ∨
         isBlank (formDataGet contactForm.formData "Message")) :
    (contactSubmit now contactForm).calls =
        [.preventDefault, .showFormError "Please fill in all required fields."] ∧
    (∀ message, Call.showFormSuccess message ∉ (contactSubmit now contactForm).calls) ∧
    Call.reset ∉ (contactSubmit now contactForm).calls ∧
    (contactSubmit now contactForm).form =
        showFormError contactForm "Please fill in all required fields." ∧
    (contactSubmit now contactForm).form.controls = contactForm.controls := by
  have hc : (!truthy (formDataGet contactForm.formData "name") ||
      !truthy (formDataGet contactForm.formData "Email") ||
      !truthy (formDataGet contactForm.formData "Company") ||
      !truthy (formDataGet contactForm.formData "Message")) = true := by
    simp only [Bool.or_eq_true, Bool.not_eq_true', truthy_eq_false_iff]
    tauto
  have hrun : contactSubmit now contactForm =
      { calls := [.preventDefault, .showFormError "Please fill in all required fields."]
        form := showFormError contactForm "Please fill in all required fields." } := by
    simp only [contactSubmit, hc, if_true]
  rw [hrun]
  refine ⟨rfl, ?_, ?_, rfl, rfl⟩
  · intro message hm
    simp at hm
  · intro hm
    simp at hm

theorem contactSubmit_required_missing_witness :
    (contactSubmit "2024-01-01T00:00:00.000Z"
      { controls := [⟨"name", "Ada", ""⟩, ⟨"Email", "ada@example.com", ""⟩,
          ⟨"Company", "", ""⟩, ⟨"Message", "Hello", ""⟩]
        parentElement := [] }).calls =
      [.preventDefault, .showFormError "Please fill in all required fields."] :=
  (contactSubmit_required_missing "2024-01-01T00:00:00.000Z"
    { controls := [⟨"name", "Ada", ""⟩, ⟨"Email", "ada@example.com", ""⟩,
        ⟨"Company", "", ""⟩, ⟨"Message", "Hello", ""⟩]
      parentElement := [] }
    (Or.inr (Or.inr (Or.inl (by decide))))).1

/-- C2: when `name`, `Email`, `Company` and `Message` are all present and
non-empty and `isValidEmail` accepts the email, whatever the `Service` value
is, the contact handler calls `showFormSuccess`, never calls `showFormError`,
and resets the form: every control is back at its default value. -/
theorem contactSubmit_valid (now : String) (contactForm : Form) (n e c m : String)
    (hn : formDataGet contactForm.formData "name" = some n) (hn0 : n ≠ "")
    (he : formDataGet contactForm.formData "Email" = some e) (he0 : e ≠ "")
    (hc : formDataGet contactForm.formData "Company" = some c) (hc0 : c ≠ "")
    (hm : formDataGet contactForm.formData "Message" = some m) (hm0 : m ≠ "")
    (hv : isValidEmail e = true) :
    (∃ message, Call.showFormSuccess message ∈ (contactSubmit now contactForm).calls ∧
      (contactSubmit now contactForm).form = (showFormSuccess contactForm message).reset) ∧
    (∀ message, Call.showFormError message ∉ (contactSubmit now contactForm).calls) ∧
    Call.reset ∈ (contactSubmit now contactForm).calls ∧
    (∀ ctl ∈ (contactSubmit now contactForm).form.controls, ctl.value = ctl.defaultValue) ∧
    (contactSubmit now contactForm).form.controls.map (·.name) =
      contactForm.controls.map (·.name) := by
  have h1 : (!truthy (formDataGet contactForm.formData "name") ||
      !truthy (formDataGet contactForm.formData "Email") ||
      !truthy (formDataGet contactForm.formData "Company") ||
      !truthy (formDataGet contactForm.formData "Message")) = false := by
    rw [hn, he, hc, hm, truthy_some hn0, truthy_some he0, truthy_some hc0, truthy_some hm0]
    rfl
  have h2 : (!isValidEmail (toJsString (formDataGet contactForm.formData "Email"))) = false := by
    rw [he]
    simp [toJsString, hv]
  simp only [contactSubmit, h1, h2, Bool.false_eq_true, if_false]
  refine ⟨⟨_, by simp, rfl⟩, ?_, by simp, ?_, ?_⟩
  · intro message hmem
    simp at hmem
  · intro ctl hctl
    simp only [Form.reset, List.mem_map] at hctl
    obtain ⟨c0, _, hc0⟩ := hctl
    rw [← hc0]
  · simp [Form.reset, showFormSuccess, List.map_map, Function.comp_def]

theorem contactSubmit_valid_witness :
    Call.reset ∈ (contactSubmit "2024-01-01T00:00:00.000Z"
      { controls := [⟨"name", "Ada", ""⟩, ⟨"Email", "ada@example.com", ""⟩,
          ⟨"Company", "Engines", ""⟩, ⟨"Message", "Hello", ""⟩]
        parentElement := [] }).calls :=
  (contactSubmit_valid "2024-01-01T00:00:00.000Z"
    { controls := [⟨"name", "Ada", ""⟩, ⟨"Email", "ada@example.com", ""⟩,
        ⟨"Company", "Engines", ""⟩, ⟨"Message", "Hello", ""⟩]
      parentElement := [] }
    "Ada" "ada@example.com" "Engines" "Hello"
    (by decide) (by decide) (by decide) (by decide) (by decide) (by decide)
    (by decide) (by decide) (by decide)).2.2.1

/-- C5: a malformed email goes to the error presentation.  For a contact
submission whose required fields are all non-empty but whose `Email` is
rejected by `isValidEmail`, and for a newsletter submission whose `email` is
rejected by `isValidEmail`, the handler runs to its end with the calls
`preventDefault` and `showFormError("Please enter a valid email address.")`
and no other: no `showFormSuccess`, no reset. -/
theorem malformed_email_error_path :
    (∀ (now : String) (contactForm : Form) (n e c m : String),
      formDataGet contactForm.formData "name" = some n → n ≠ "" →
      formDataGet contactForm.formData "Email" = some e → e ≠ "" →
      formDataGet contactForm.formData "Company" = some c → c ≠ "" →
      formDataGet contactForm.formData "Message" = some m → m ≠ "" →
      isValidEmail e = false →
      contactSubmit now contactForm =
        { calls := [.preventDefault, .showFormError "Please enter a valid email address."]
          form := showFormError contactForm "Please enter a valid email address." } ∧
      (∀ message, Call.showFormSuccess message ∉ (contactSubmit now contactForm).calls) ∧
      Call.reset ∉ (contactSubmit now contactForm).calls ∧
      (contactSubmit now contactForm).form.controls = contactForm.controls) ∧
    (∀ (form : Form),
      isValidEmail (toJsString (formDataGet form.formData "email")) = false →
      newsletterSubmit form =
        { calls := [.preventDefault, .showFormError "Please enter a valid email address."]
          form := showFormError form "Please enter a valid email address." } ∧
      (∀ message, Call.showFormSuccess message ∉ (newsletterSubmit form).calls) ∧
      Call.reset ∉ (newsletterSubmit form).calls ∧
      (newsletterSubmit form).form.controls = form.controls) := by
  constructor
  · intro now contactForm n e c m hn hn0 he he0 hc hc0 hm hm0 hv
    have h1 : (!truthy (formDataGet contactForm.formData "name") ||
        !truthy (formDataGet contactForm.formData "Email") ||
        !truthy (formDataGet contactForm.formData "Company") ||
        !truthy (formDataGet contactForm.formData "Message")) = false := by
      rw [hn, he, hc, hm, truthy_some hn0, truthy_some he0, truthy_some hc0, truthy_some hm0]
      rfl
    have h2 : (!isValidEmail (toJsString (formDataGet contactForm.formData "Email"))) = true := by
      rw [he]
      simp [toJsString, hv]
    have hrun : contactSubmit now contactForm =
        { calls := [.preventDefault, .showFormError "Please enter a valid email address."]
          form := showFormError contactForm "Please enter a valid email address." } := by
      simp only [contactSubmit, h1, h2, Bool.false_eq_true, if_false, if_true]
    rw [hrun]
    refine ⟨rfl, ?_, ?_, rfl⟩
    · intro message hmem
      simp at hmem
    · intro hmem
      simp at hmem
  · intro form hv
    have h2 : (!isValidEmail (toJsString (formDataGet form.formData "email"))) = true := by
      simp [hv]
    have hrun : newsletterSubmit form =
        { calls := [.preventDefault, .showFormError "Please enter a valid email address."]
          form := showFormError form "Please enter a valid email address." } := by
      simp only [newsletterSubmit, h2, if_true]
    rw [hrun]
    refine ⟨rfl, ?_, ?_, rfl⟩
    · intro message hmem
      simp at hmem
    · intro hmem
      simp at hmem

theorem malformed_email_error_path_witness :
    (contactSubmit "2024-01-01T00:00:00.000Z"
      { controls := [⟨"name", "Ada", ""⟩, ⟨"Email", "ada.example.com", ""⟩,
          ⟨"Company", "Engines", ""⟩, ⟨"Message", "Hello", ""⟩]
        parentElement := [] }).calls =
      [.preventDefault, .showFormError "Please enter a valid email address."] ∧
    (newsletterSubmit { controls := [⟨"email", "ada@example", ""⟩], parentElement := [] }).calls =
      [.preventDefault, .showFormError "Please enter a valid email address."] :=
  ⟨congrArg Run.calls (malformed_email_error_path.1 "2024-01-01T00:00:00.000Z"
    { controls := [⟨"name", "Ada", ""⟩, ⟨"Email", "ada.example.com", ""⟩,
        ⟨"Company", "Engines", ""⟩, ⟨"Message", "Hello", ""⟩]
      parentElement := [] }
    "Ada" "ada.example.com" "Engines" "Hello"
    (by decide) (by decide) (by decide) (by decide) (by decide) (by decide)
    (by decide) (by decide) (by decide)).1,
   congrArg Run.calls (malformed_email_error_path.2
    { controls := [⟨"email", "ada@example", ""⟩], parentElement := [] } (by decide)).1⟩

/-! ## Claim on the presenters -/

/-- C6: the success and error presentations are mutually exclusive.  For a
form whose parent holds a success element (index `i`) and an error element
(index `j`, another element), and for every message: after `showFormSuccess`
the success element has display `block`, its message slot holds the message
and the error element has display `none`; after `showFormError` the error
element has display `block`, its message slot holds the message and the
success element has display `none`; and after any sequence of such calls
exactly one of the two has display `block`, the other `none`. -/
theorem presenters_mutually_exclusive (form : Form) (i j : Nat)
    (hs : successDivOf form = some i) (he : errorDivOf form = some j) (hij : i ≠ j) :
    (∀ message,
      displayAt (showFormSuccess form message) i = some "block" ∧
      displayAt (showFormSuccess form message) j = some "none" ∧
      ∀ e k, form.parentElement[i]? = some e → successMessageEl e = some k →
        messageAt (showFormSuccess form message) i k = some message) ∧
    (∀ message,
      displayAt (showFormError form message) j = some "block" ∧
      displayAt (showFormError form message) i = some "none" ∧
      ∀ e k, form.parentElement[j]? = some e → errorMessageEl e = some k →
        messageAt (showFormError form message) j k = some message) ∧
    (∀ (calls : List Presenter) (call : Presenter),
      successDivOf (runPresenters form (calls ++ [call])) = some i ∧
      errorDivOf (runPresenters form (calls ++ [call])) = some j ∧
      ((displayAt (runPresenters form (calls ++ [call])) i = some "block" ∧
        displayAt (runPresenters form (calls ++ [call])) j = some "none") ∨
       (displayAt (runPresenters form (calls ++ [call])) i = some "none" ∧
        displayAt (runPresenters form (calls ++ [call])) j = some "block"))) := by
  refine ⟨showFormSuccess_spec form i j hs he hij, showFormError_spec form i j hs he hij, ?_⟩
  intro calls call
  have hs2 : successDivOf (runPresenters form calls) = some i := by
    rw [successDivOf_runPresenters, hs]
  have he2 : errorDivOf (runPresenters form calls) = some j := by
    rw [errorDivOf_runPresenters, he]
  refine ⟨by rw [successDivOf_runPresenters, hs], by rw [errorDivOf_runPresenters, he], ?_⟩
  have hstep : runPresenters form (calls ++ [call]) = call.run (runPresenters form calls) := by
    simp [runPresenters, List.foldl_append]
  rw [hstep]
  cases call with
  | success message =>
    left
    have h := showFormSuccess_spec _ i j hs2 he2 hij message
    exact ⟨h.1, h.2.1⟩
  | error message =>
    right
    have h := showFormError_spec _ i j hs2 he2 hij message
    exact ⟨h.2.1, h.1⟩

theorem presenters_mutually_exclusive_witness :
    displayAt (showFormSuccess
      { controls := []
        parentElement :=
          [⟨"div", ["w-form-done"], "none", [⟨"div", [], "Thank you!", ""⟩]⟩,
           ⟨"div", ["w-form-fail"], "none", [⟨"div", [], "Oops!", ""⟩]⟩] } "Sent") 0
      = some "block" :=
  ((presenters_mutually_exclusive
      { controls := []
        parentElement :=
          [⟨"div", ["w-form-done"], "none", [⟨"div", [], "Thank you!", ""⟩]⟩,
           ⟨"div", ["w-form-fail"], "none", [⟨"div", [], "Oops!", ""⟩]⟩] }
      0 1 (by decide) (by decide) (by decide)).1 "Sent").1

/-! ## Claim on the accordion -/

/-- C7: in a panel set with at most one panel open, for distinct panels `A`
and `B` with `A` open, a click on the button of `B` leaves `A` collapsed
(max-height `0px`, opacity `0`) and `B` expanded (max-height its
`scrollHeight` in px, opacity `1`); and after every click on a panel button
every other panel is collapsed, so at most one panel of the whole set is open. -/
theorem faq_click_one_open :
    (∀ (wraps : List AnswerWrap) (A B : Nat) (a b : AnswerWrap),
      wraps.countP AnswerWrap.isOpen ≤ 1 → A ≠ B →
      wraps[A]? = some a → a.isOpen = true → wraps[B]? = some b →
      ∃ after, faqButtonClick wraps B = some after ∧
        after[A]? = some { a with maxHeight := "0px", opacity := "0" } ∧
        after[B]? = some { b with
          maxHeight := toString b.scrollHeight ++ "px"
          opacity := "1"
          transition := "max-height 0.3s ease, opacity 0.3s ease" }) ∧
    (∀ (wraps : List AnswerWrap) (k : Nat), k < wraps.length →
      ∃ after, faqButtonClick wraps k = some after ∧
        after.length = wraps.length ∧
        (∀ m w, m ≠ k → after[m]? = some w → w.maxHeight = "0px" ∧ w.opacity = "0") ∧
        after.countP AnswerWrap.isOpen ≤ 1) := by
  constructor
  · intro wraps A B a b hone hAB hA haopen hB
    have hbclosed : b.isOpen = false := by
      rw [← Bool.not_eq_true]
      intro hbopen
      exact hAB (eq_of_countP_le_one _ wraps A B a b hone hA haopen hB hbopen)
    refine ⟨_, faqButtonClick_of_closed wraps B b hB hbclosed, ?_, ?_⟩
    · rw [getElem?_modifyAt_ne _ B A _ (Ne.symm hAB), List.getElem?_map, hA]
      rfl
    · rw [getElem?_modifyAt_self, List.getElem?_map, hB]
      rfl
  · intro wraps k hk
    have hclosedAll : ∀ x ∈ wraps.map AnswerWrap.close, AnswerWrap.isOpen x = false := by
      intro x hx
      obtain ⟨w, _, hw⟩ := List.mem_map.mp hx
      rw [← hw]
      exact isOpen_close w
    have hget : wraps[k]? = some wraps[k] := List.getElem?_eq_getElem hk
    cases hopen : (wraps[k]).isOpen with
    | false =>
      refine ⟨_, faqButtonClick_of_closed wraps k _ hget hopen, ?_, ?_, ?_⟩
      · rw [length_modifyAt, List.length_map]
      · intro m w hm hw
        rw [getElem?_modifyAt_ne _ k m _ (Ne.symm hm), List.getElem?_map] at hw
        cases hwm : wraps[m]? with
        | none => simp [hwm] at hw
        | some v =>
          simp only [hwm, Option.map_some', Option.some.injEq] at hw
          rw [← hw]
          exact ⟨rfl, rfl⟩
      · exact countP_modifyAt_le_one _ _ k _ hclosedAll
    | true =>
      refine ⟨_, faqButtonClick_of_open wraps k _ hget hopen, ?_, ?_, ?_⟩
      · rw [List.length_map]
      · intro m w _ hw
        rw [List.getElem?_map] at hw
        cases hwm : wraps[m]? with
        | none => simp [hwm] at hw
        | some v =>
          simp only [hwm, Option.map_some', Option.some.injEq] at hw
          rw [← hw]
          exact ⟨rfl, rfl⟩
      · rw [countP_eq_zero_of_all_false _ _ hclosedAll]
        exact Nat.zero_le 1

theorem faq_click_one_open_witness :
    ∃ after,
      faqButtonClick [⟨"120px", "1", "", 120⟩, ⟨"0px", "0", "", 80⟩, ⟨"", "", "", 64⟩] 1
        = some after ∧
      after[0]? = some ⟨"0px", "0", "", 120⟩ ∧
      after[1]? = some ⟨"80px", "1", "max-height 0.3s ease, opacity 0.3s ease", 80⟩ :=
  faq_click_one_open.1 [⟨"120px", "1", "", 120⟩, ⟨"0px", "0", "", 80⟩, ⟨"", "", "", 64⟩] 0 1
    ⟨"120px", "1", "", 120⟩ ⟨"0px", "0", "", 80⟩ (by decide) (by decide) rfl (by decide) rfl

/-! ## Claim on field validation -/

/-- C8, as stated, fails: a required field of type `email` that is empty gets
one annotation on blur, and after it is filled with `abc` the next blur
leaves one annotation again ("Please enter a valid email address"), not none. -/
theorem blur_filled_email_keeps_error :
    (⟨"", true, "email", "", []⟩ : Field).required = true ∧
    (⟨"", true, "email", "", []⟩ : Field).value = "" ∧
    fieldErrorCount (blur ⟨"", true, "email", "", []⟩) = 1 ∧
    "abc" ≠ "" ∧
    fieldErrorCount (blur ((blur ⟨"", true, "email", "", []⟩).fill "abc")) = 1 ∧
    fieldErrorCount (blur ((blur ⟨"", true, "email", "", []⟩).fill "abc")) ≠ 0 := by
  decide

/-- C8, amended: for a required field whose value is empty (or white space
only) and whose parent holds at most one `.field-error` element, every blur,
also a repeated one, leaves exactly one `.field-error` annotation; and a blur
after the field has been filled with a value that is not blank and, when the
field has type `email`, is accepted by `isValidEmail`, leaves none. -/
theorem blur_error_count (field : Field) (hreq : field.required = true)
    (hempty : jsTrim field.value = "") (hcount : fieldErrorCount field ≤ 1) :
    (∀ n, fieldErrorCount (blur^[n + 1] field) = 1) ∧
    (∀ n value, jsTrim value ≠ "" →
      (field.type = "email" → isValidEmail (jsTrim value) = true) →
      fieldErrorCount (blur ((blur^[n + 1] field).fill value)) = 0) := by
  refine ⟨fieldErrorCount_blur_iterate field hreq hempty hcount, ?_⟩
  intro n value hfilled hemail
  have hf := blur_iterate_frame field (n + 1)
  have hone := fieldErrorCount_blur_iterate field hreq hempty hcount n
  have hvalid : blur ((blur^[n + 1] field).fill value) =
      hideFieldError { (blur^[n + 1] field).fill value with borderColor := "#059669" } :=
    blur_of_valid ((blur^[n + 1] field).fill value) hfilled
      (fun ht => hemail (hf.2.2.symm.trans ht))
  rw [hvalid, fieldErrorCount_hideFieldError]
  have : fieldErrorCount { (blur^[n + 1] field).fill value with borderColor := "#059669" } =
      fieldErrorCount (blur^[n + 1] field) := rfl
  omega

theorem blur_error_count_witness :
    fieldErrorCount (blur^[2 + 1] ⟨"  ", true, "text", "", []⟩) = 1 ∧
    fieldErrorCount (blur ((blur^[0 + 1] ⟨"  ", true, "text", "", []⟩).fill "Ada")) = 0 :=
  ⟨(blur_error_count ⟨"  ", true, "text", "", []⟩ (by decide) (by decide) (by decide)).1 2,
   (blur_error_count ⟨"  ", true, "text", "", []⟩ (by decide) (by decide) (by decide)).2 0 "Ada"
     (by decide) (by decide)⟩

/-! ## Claim on the marquee -/

/-- C9: `initBrandsListLoop` is idempotent on the children of the list.  For
a list with `n` children and no `marquee-ready` marker, the first call appends
one clone of each child, tagged `brands_item-clone`, in the original order,
and sets the marker, giving `2 * n` children; every later call leaves the
children as they are. -/
theorem initBrandsListLoop_idempotent (brandsList : BrandsList)
    (h : "marquee-ready" ∉ brandsList.classList) :
    ∃ first, initBrandsListLoop (some brandsList) = some first ∧
      first.children = brandsList.children ++ brandsList.children.map BrandsItem.clone ∧
      (∀ item ∈ brandsList.children,
        "brands_item-clone" ∈ item.clone.classList ∧ item.clone.content = item.content ∧
        ∀ t ∈ item.classList, t ∈ item.clone.classList) ∧
      "marquee-ready" ∈ first.classList ∧
      first.children.length = 2 * brandsList.children.length ∧
      ∀ k, ∃ later, initBrandsListLoop^[k] (some first) = some later ∧
        later.children = first.children ∧
        later.children.length = 2 * brandsList.children.length := by
  have hc : brandsList.classList.contains "marquee-ready" = false := by simpa using h
  have hchildren : brandsList.init.children =
      brandsList.children ++ brandsList.children.map BrandsItem.clone := by
    simp only [BrandsList.init, hc, Bool.not_false, if_true, foldl_append_clone]
  have hready : "marquee-ready" ∈ brandsList.init.classList := by
    simp only [BrandsList.init, hc, Bool.not_false, if_true]
    exact mem_classListAdd_of_mem _ _ _ (mem_classListAdd _ _)
  have hlen : brandsList.init.children.length = 2 * brandsList.children.length := by
    rw [hchildren, List.length_append, List.length_map]
    omega
  refine ⟨brandsList.init, rfl, hchildren, ?_, hready, hlen, ?_⟩
  · intro item _
    exact ⟨mem_classListAdd _ _, rfl, fun t ht => mem_classListAdd_of_mem _ _ _ ht⟩
  · intro k
    have hk := init_iterate_of_ready brandsList.init hready k
    exact ⟨_, initBrandsListLoop_iterate _ k, hk.1, by rw [hk.1, hlen]⟩

theorem initBrandsListLoop_idempotent_witness :
    ∃ first, initBrandsListLoop (some ⟨["brands_list"], [⟨["brands_item"], "a"⟩,
        ⟨["brands_item"], "b"⟩], 0, 0⟩) = some first ∧
      first.children = [⟨["brands_item"], "a"⟩, ⟨["brands_item"], "b"⟩,
        ⟨["brands_item", "brands_item-clone"], "a"⟩,
        ⟨["brands_item", "brands_item-clone"], "b"⟩] := by
  obtain ⟨first, h1, h2, _⟩ := initBrandsListLoop_idempotent
    ⟨["brands_list"], [⟨["brands_item"], "a"⟩, ⟨["brands_item"], "b"⟩], 0, 0⟩ (by decide)
  exact ⟨first, h1, by rw [h2]; decide⟩

/-! ## Claim on smooth scrolling -/

/-- C10, as stated, fails: for the link `#missing`, whose fragment resolves
to no element, the handler does prevent the default action. -/
theorem smoothScrollClick_missing_prevents_default :
    ("#missing" : String).data.head? = some '#' ∧
    (smoothScrollClick (fun _ => QueryResult.null) "#missing").defaultPrevented = true ∧
    (smoothScrollClick (fun _ => QueryResult.null) "#missing").scrolledIntoView = none := by
  decide

/-- C10, amended: for a click on a same-page anchor link, when `href` is
exactly `#` the handler does nothing (the default action is not prevented,
nothing is scrolled); when the fragment is not empty and
`document.querySelector(href)` finds no element, the handler prevents
the default action and scrolls nothing; when it finds an element, the handler
also prevents the default action and scrolls that element into view. -/
theorem smoothScrollClick_spec (querySelector : String → QueryResult) :
    smoothScrollClick querySelector "#" =
      { defaultPrevented := false, scrolledIntoView := none, threw := false } ∧
    (∀ (href : String) (rest : List Char), href.data = '#' :: rest → rest ≠ [] →
      querySelector href = .null →
      smoothScrollClick querySelector href =
        { defaultPrevented := true, scrolledIntoView := none, threw := false }) ∧
    (∀ (href : String) (rest : List Char) (target : Nat), href.data = '#' :: rest →
      rest ≠ [] → querySelector href = .element target →
      smoothScrollClick querySelector href =
        { defaultPrevented := true, scrolledIntoView := some target, threw := false }) := by
  have hlen : ∀ (href : String) (rest : List Char), href.data = '#' :: rest → rest ≠ [] →
      jsLength href > 1 := by
    intro href rest hd hrest
    have : href = ⟨'#' :: rest⟩ := String.ext hd
    rw [this]
    exact (jsLength_hash_cons rest).mpr hrest
  refine ⟨?_, ?_, ?_⟩
  · have h1 : ¬ jsLength "#" > 1 := by decide
    simp only [smoothScrollClick, h1, if_false]
  · intro href rest hd hrest hq
    simp only [smoothScrollClick, hlen href rest hd hrest, if_true, hq]
  · intro href rest target hd hrest hq
    simp only [smoothScrollClick, hlen href rest hd hrest, if_true, hq]

theorem smoothScrollClick_spec_witness :
    smoothScrollClick (fun href => if href = "#about" then .element 7 else .null) "#about" =
      { defaultPrevented := true, scrolledIntoView := some 7, threw := false } ∧
    smoothScrollClick (fun href => if href = "#about" then .element 7 else .null) "#team" =
      { defaultPrevented := true, scrolledIntoView := none, threw := false } :=
  ⟨(smoothScrollClick_spec _).2.2 "#about" ['a', 'b', 'o', 'u', 't'] 7 rfl (by decide) (by decide),
   (smoothScrollClick_spec _).2.1 "#team" ['t', 'e', 'a', 'm'] rfl (by decide) (by decide)⟩

end SonniAI
